import Mathlib

/-!
Verification of the chunking / decoding utilities in
src/data_helper/chunk_helper_coqa.py.

The Python source is shallowly embedded below.  Python integers are
modelled as Int (Nat where only non-negative values can arise), float
logits as rationals, Python dicts as association lists, and the
potentially non-terminating sliding-window while-loop as a fuel-indexed
function returning none exactly when the loop has not finished within
the given fuel.  External collaborators (the tokenizer,
_improve_answer_span, _check_is_max_context, _get_best_indexes,
get_final_text) are passed in as opaque function parameters, mirroring
their role as black boxes in the source.
-/

/-- A document window produced by the sliding-window loop
(namedtuple DocSpan with fields start, length). -/
structure DocSpan where
  start : Int
  length : Int
deriving DecidableEq

/-- The window length computed at the top of each loop iteration:
length = L - start_offset; if length > max_tokens_for_doc, clamp to the
budget B. -/
def windowLen (L B start : Int) : Int :=
  if L - start > B then B else L - start

/-- Fuel-indexed embedding of the while-loop at
chunk_helper_coqa.py lines 115-123:

start_offset = 0
while start_offset < len(all_doc_tokens):
    length = len(all_doc_tokens) - start_offset
    if length > max_tokens_for_doc: length = max_tokens_for_doc
    doc_spans.append(DocSpan(start=start_offset, length=length))
    if start_offset + length == len(all_doc_tokens): break
    start_offset += min(length, doc_stride)

Returns none when the loop has not terminated within fuel iterations. -/
def windowLoop (L B S : Int) : Nat → Int → Option (List DocSpan)
  | 0, _ => none
  | fuel + 1, start_offset =>
    if start_offset < L then
      if start_offset + windowLen L B start_offset = L then
        some [⟨start_offset, windowLen L B start_offset⟩]
      else
        match windowLoop L B S fuel (start_offset + min (windowLen L B start_offset) S) with
        | none => none
        | some rest => some (⟨start_offset, windowLen L B start_offset⟩ :: rest)
    else
      some []

/-- The document spans generated for a document of L subword tokens with
budget B and stride S; L + 1 units of fuel are provably sufficient
whenever the Python loop terminates. -/
def docSpans (L B S : Int) : Option (List DocSpan) :=
  windowLoop L B S (L.toNat + 1) 0

/-- Ceiling division on integers, used to state the window-count formula. -/
def ceilDiv (a b : Int) : Int := (a + b - 1) / b

/-- The proposition that the sliding-window loop started at offset 0 never
terminates, whatever the iteration bound. -/
def loopStuck (L B S : Int) : Prop := ∀ fuel : Nat, windowLoop L B S fuel 0 = none

/-- Transcription of the spec sentence "Starting at offset 0, emit a window
covering min(budget, remaining_tokens) tokens; if the window reaches the end
of the document, stop; otherwise advance the start offset by
min(window_length, stride) and repeat", as a relation between a start offset
and the list of emitted windows. -/
inductive SpecWindows (L B S : Int) : Int → List DocSpan → Prop where
  | last (start len : Int) (hlen : len = min B (L - start)) (hend : start + len = L) :
      SpecWindows L B S start [⟨start, len⟩]
  | step (start len : Int) (rest : List DocSpan) (hlen : len = min B (L - start))
      (hend : start + len ≠ L) (hrest : SpecWindows L B S (start + min len S) rest) :
      SpecWindows L B S start (⟨start, len⟩ :: rest)

theorem windowLen_eq_min (L B start : Int) : windowLen L B start = min B (L - start) := by
  unfold windowLen
  split <;> omega

theorem ceilDiv_of_le (a b : Int) (h1 : 1 ≤ a) (h2 : a ≤ b) : ceilDiv a b = 1 := by
  have hb : (b : Int) ≠ 0 := by omega
  have he : a + b - 1 = (a - 1) + 1 * b := by ring
  rw [ceilDiv, he, Int.add_mul_ediv_right _ _ hb,
    Int.ediv_eq_zero_of_lt (by omega) (by omega)]
  omega

theorem ceilDiv_step (a b : Int) (hb : 1 ≤ b) :
    ceilDiv a b = ceilDiv (a - b) b + 1 := by
  have hb0 : (b : Int) ≠ 0 := by omega
  have he : a + b - 1 = (a - b + b - 1) + 1 * b := by ring
  rw [ceilDiv, ceilDiv, he, Int.add_mul_ediv_right _ _ hb0]

theorem getLast?_cons_of_ne_nil {α : Type} (a : α) (l : List α) (h : l ≠ []) :
    (a :: l).getLast? = l.getLast? := by
  cases l with
  | nil => exact absurd rfl h
  | cons b t => simp [List.getLast?_cons_cons]

/-- Main soundness lemma for the sliding-window loop with positive budget and
stride: the loop terminates, satisfies the spec-side window description,
its last window ends exactly at L, every window is well-formed with length
at most B, and the number of windows obeys the ceiling-division formula with
effective step min B S. -/
theorem windowLoop_sound (L B S : Int) (hB : 1 ≤ B) (hS : 1 ≤ S) :
    ∀ fuel : Nat, ∀ start : Int, 0 ≤ start → start < L → (L - start).toNat < fuel →
    ∃ ws, windowLoop L B S fuel start = some ws ∧
      SpecWindows L B S start ws ∧
      (∃ w, ws.getLast? = some w ∧ w.start + w.length = L) ∧
      (∀ w ∈ ws, 0 ≤ w.start ∧ 1 ≤ w.length ∧ w.length ≤ B ∧ w.start + w.length ≤ L) ∧
      ((ws.length : Int) =
        if L - start ≤ B then 1 else ceilDiv (L - start - B) (min B S) + 1) := by
  intro fuel
  induction fuel with
  | zero => intro start _ _ h; omega
  | succ n ih =>
    intro start h0 hL hfuel
    by_cases hrem : L - start ≤ B
    · -- final window: covers the rest of the document
      have hlen : windowLen L B start = L - start := by
        rw [windowLen_eq_min, min_eq_right hrem]
      refine ⟨[⟨start, L - start⟩], ?_, ?_, ?_, ?_, ?_⟩
      · simp only [windowLoop]
        rw [if_pos hL, hlen, if_pos (by omega : start + (L - start) = L)]
      · exact SpecWindows.last start (L - start) (by rw [min_eq_right hrem]) (by omega)
      · exact ⟨⟨start, L - start⟩, rfl, by dsimp only; omega⟩
      · intro w hw
        simp only [List.mem_singleton] at hw
        subst hw
        exact ⟨h0, by dsimp only; omega, by dsimp only; omega, by dsimp only; omega⟩
      · simp [hrem]
    · -- window of length B, then recurse
      have hgt : B < L - start := by omega
      have hlen : windowLen L B start = B := by
        rw [windowLen_eq_min, min_eq_left (by omega)]
      have hmin : 1 ≤ min B S := le_min hB hS
      have hminB : min B S ≤ B := min_le_left _ _
      have h0' : 0 ≤ start + min B S := by omega
      have hL' : start + min B S < L := by omega
      have hfuel' : (L - (start + min B S)).toNat < n := by omega
      obtain ⟨rest, hrest, hspec, ⟨wl, hwl, hwlend⟩, hmem, hcount⟩ :=
        ih (start + min B S) h0' hL' hfuel'
      have hrestne : rest ≠ [] := by
        intro hnil
        rw [hnil] at hwl
        simp at hwl
      refine ⟨⟨start, B⟩ :: rest, ?_, ?_, ?_, ?_, ?_⟩
      · simp only [windowLoop]
        rw [if_pos hL, hlen, if_neg (by omega : ¬ (start + B = L)), hrest]
      · exact SpecWindows.step start B rest (by rw [min_eq_left (by omega)]) (by omega) hspec
      · refine ⟨wl, ?_, hwlend⟩
        rw [getLast?_cons_of_ne_nil _ _ hrestne]
        exact hwl
      · intro w hw
        rcases List.mem_cons.mp hw with hw | hw
        · subst hw
          exact ⟨h0, by dsimp only; omega, le_refl _, by dsimp only; omega⟩
        · exact hmem w hw
      · have hlc : (((⟨start, B⟩ : DocSpan) :: rest).length : Int) = (rest.length : Int) + 1 := by
          simp
        rw [hlc, hcount, if_neg hrem]
        by_cases hrem' : L - (start + min B S) ≤ B
        · rw [if_pos hrem',
            ceilDiv_of_le (L - start - B) (min B S) (by omega) (by omega)]
        · rw [if_neg hrem',
            ceilDiv_step (L - start - B) (min B S) hmin]
          have he : L - start - B - min B S = L - (start + min B S) - B := by ring
          rw [he]

/-- With a non-positive document budget and a non-empty subword document the
loop body always re-enters the loop with a start offset that is no larger,
so the loop never terminates. -/
theorem windowLoop_stuck (L B S : Int) (hL : 1 ≤ L) (hB : B ≤ 0) :
    ∀ fuel : Nat, ∀ start : Int, start ≤ 0 → windowLoop L B S fuel start = none := by
  intro fuel
  induction fuel with
  | zero => intro start _; rfl
  | succ n ih =>
    intro start hstart
    have hLs : start < L := by omega
    have hlen : windowLen L B start = B := by
      rw [windowLen_eq_min, min_eq_left (by omega)]
    simp only [windowLoop]
    rw [if_pos hLs, hlen, if_neg (by omega : ¬ (start + B = L)),
      ih (start + min B S) (by have := min_le_left B S; omega)]

/-- Embedding of the CoQAExample record consumed by
convert_examples_to_features: conversation history (current turn last),
whitespace-level document tokens, gold answer span in original-token
coordinates, yes/no labels and identifiers. -/
structure CoQAExample where
  question_texts : List String
  doc_tokens : List String
  start_position : Nat
  end_position : Nat
  orig_answer_text : String
  yes_no_flag : Int
  yes_no_ans : Int
  paragraph_id : String
  turn_id : Int
deriving DecidableEq

/-- Embedding of the ChunkFeature record. -/
structure ChunkFeature where
  unique_id : Int
  example_index : Nat
  doc_span_index : Nat
  tokens : List String
  token_to_orig_map : List (Nat × Nat)
  token_is_max_context : List (Nat × Bool)
  input_ids : List Int
  input_mask : List Nat
  segment_ids : List Nat
  start_position : Option Int
  end_position : Option Int
  yes_no_flag : Option Int
  yes_no_ans : Option Int
deriving DecidableEq

/-- Query construction (lines 76-86).  Each question is tokenized
independently; with append_history the per-question lists are reversed
before concatenation and the first max_query_length tokens are taken;
otherwise the slice flat[-1*max_query_length:] is taken, which in
Python is the whole list when max_query_length = 0 and the last
min(max_query_length, len) tokens otherwise. -/
def queryTokensOf (tokenize : String → List String) (questionTexts : List String)
    (maxQueryLength : Nat) (appendHistory : Bool) : List String :=
  let allQueryTokens := questionTexts.map tokenize
  let allQueryTokens := if appendHistory then allQueryTokens.reverse else allQueryTokens
  let flatAllQueryTokens := allQueryTokens.flatten
  if appendHistory then
    flatAllQueryTokens.take maxQueryLength
  else if maxQueryLength = 0 then
    flatAllQueryTokens
  else
    flatAllQueryTokens.drop (flatAllQueryTokens.length - maxQueryLength)

/-- Spec-side description "the last n tokens of l". -/
def lastTokens (n : Nat) (l : List String) : List String :=
  l.drop (l.length - n)

/-- Document re-tokenization (lines 88-96): returns
(tok_to_orig_index, orig_to_tok_index, all_doc_tokens). -/
def docSubwords (tokenize : String → List String) (docTokens : List String) :
    List Nat × List Nat × List String :=
  docTokens.enum.foldl
    (fun acc it =>
      let subTokens := tokenize it.2
      (acc.1 ++ subTokens.map (fun _ => it.1),
       acc.2.1 ++ [acc.2.2.length],
       acc.2.2 ++ subTokens))
    ([], [], [])

/-- Gold-answer re-mapping into subword coordinates (lines 98-108),
including the call to the external _improve_answer_span utility. -/
def tokAnswerSpan (improveAnswerSpan : List String → Int → Int → String → Int × Int)
    (ex : CoQAExample) (origToTokIndex : List Nat) (allDocTokens : List String) :
    Int × Int :=
  let tokStartPosition : Int := (origToTokIndex.getD ex.start_position 0 : Nat)
  let tokEndPosition : Int :=
    if (ex.end_position : Int) < (ex.doc_tokens.length : Int) - 1 then
      (origToTokIndex.getD (ex.end_position + 1) 0 : Nat) - 1
    else
      (allDocTokens.length : Int) - 1
  improveAnswerSpan allDocTokens tokStartPosition tokEndPosition ex.orig_answer_text

/-- The token sequence of one chunk (lines 126-148):
[CLS] + query tokens + [SEP] + window document tokens + [SEP]. -/
def chunkTokens (queryTokens allDocTokens : List String) (span : DocSpan) : List String :=
  ["[CLS]"] ++ queryTokens ++ ["[SEP]"]
    ++ (List.range span.length.toNat).map
        (fun i => allDocTokens.getD (span.start.toNat + i) "")
    ++ ["[SEP]"]

/-- token_to_orig_map: document-region positions to original token indexes. -/
def chunkTokenToOrigMap (queryTokens : List String) (tokToOrigIndex : List Nat)
    (span : DocSpan) : List (Nat × Nat) :=
  (List.range span.length.toNat).map
    (fun i => (queryTokens.length + 2 + i, tokToOrigIndex.getD (span.start.toNat + i) 0))

/-- token_is_max_context, with the external _check_is_max_context utility. -/
def chunkTokenIsMaxContext (checkIsMaxContext : List DocSpan → Nat → Nat → Bool)
    (queryTokens : List String) (allSpans : List DocSpan) (spanIndex : Nat)
    (span : DocSpan) : List (Nat × Bool) :=
  (List.range span.length.toNat).map
    (fun i => (queryTokens.length + 2 + i,
      checkIsMaxContext allSpans spanIndex (span.start.toNat + i)))

/-- segment_ids before padding: 0 for [CLS]+query+[SEP], 1 for the document
region and its trailing [SEP]. -/
def chunkSegmentIds (queryTokens : List String) (span : DocSpan) : List Nat :=
  List.replicate (queryTokens.length + 2) 0 ++ List.replicate (span.length.toNat + 1) 1

/-- Zero-padding loop (lines 155-158): append z until the length reaches
maxSeqLength (a no-op when the list is already at least that long). -/
def padZeros {A : Type} (z : A) (maxSeqLength : Nat) (l : List A) : List A :=
  l ++ List.replicate (maxSeqLength - l.length) z

/-- Per-window feature construction and training-label filter
(lines 125-205).  The fold carries (features built so far, next unique_id);
a window is skipped entirely in training mode when the gold
original-token span (example.start_position / example.end_position - note:
not the subword-mapped positions) falls outside
[span.start, span.start + span.length - 1]. -/
def buildFeatures (checkIsMaxContext : List DocSpan → Nat → Nat → Bool)
    (convertId : String → Int) (ex : CoQAExample) (exampleIndex : Nat)
    (maxSeqLength : Nat) (isTraining : Bool) (queryTokens allDocTokens : List String)
    (tokToOrigIndex : List Nat) (tokSpan : Int × Int) (spans : List DocSpan)
    (uid0 : Int) : List ChunkFeature × Int :=
  spans.enum.foldl
    (fun acc p =>
      let spanIndex := p.1
      let span := p.2
      let tokens := chunkTokens queryTokens allDocTokens span
      let inputIds := padZeros (0 : Int) maxSeqLength (tokens.map convertId)
      let inputMask := padZeros (0 : Nat) maxSeqLength (List.replicate tokens.length 1)
      let segmentIds := padZeros (0 : Nat) maxSeqLength (chunkSegmentIds queryTokens span)
      let docStart := span.start
      let docEnd := span.start + span.length - 1
      if isTraining ∧
          ((ex.start_position : Int) < docStart ∨ (ex.end_position : Int) < docStart ∨
           (ex.start_position : Int) > docEnd ∨ (ex.end_position : Int) > docEnd) then
        acc
      else
        let docOffset : Int := queryTokens.length + 2
        let f : ChunkFeature :=
          { unique_id := acc.2
            example_index := exampleIndex
            doc_span_index := spanIndex
            tokens := tokens
            token_to_orig_map := chunkTokenToOrigMap queryTokens tokToOrigIndex span
            token_is_max_context :=
              chunkTokenIsMaxContext checkIsMaxContext queryTokens spans spanIndex span
            input_ids := inputIds
            input_mask := inputMask
            segment_ids := segmentIds
            start_position := if isTraining then some (tokSpan.1 - docStart + docOffset) else none
            end_position := if isTraining then some (tokSpan.2 - docStart + docOffset) else none
            yes_no_flag := if isTraining then some ex.yes_no_flag else none
            yes_no_ans := if isTraining then some ex.yes_no_ans else none }
        (acc.1 ++ [f], acc.2 + 1))
    ([], uid0)

/-- convert_examples_to_features for one example (lines 75-205), returning
the produced features together with the next unique_id, or none when the
sliding-window loop diverges.  The tokenizer, _improve_answer_span,
_check_is_max_context and convert_tokens_to_ids are opaque parameters. -/
def convertExample (tokenize : String → List String)
    (improveAnswerSpan : List String → Int → Int → String → Int × Int)
    (checkIsMaxContext : List DocSpan → Nat → Nat → Bool)
    (convertId : String → Int) (ex : CoQAExample) (exampleIndex : Nat)
    (maxSeqLength : Nat) (docStride : Int) (maxQueryLength : Nat)
    (isTraining appendHistory : Bool) (uid0 : Int) :
    Option (List ChunkFeature × Int) :=
  let queryTokens := queryTokensOf tokenize ex.question_texts maxQueryLength appendHistory
  let sub := docSubwords tokenize ex.doc_tokens
  let tokToOrigIndex := sub.1
  let origToTokIndex := sub.2.1
  let allDocTokens := sub.2.2
  let tokSpan :=
    if isTraining then tokAnswerSpan improveAnswerSpan ex origToTokIndex allDocTokens
    else (0, 0)
  let maxTokensForDoc : Int := (maxSeqLength : Int) - queryTokens.length - 3
  match docSpans (allDocTokens.length : Int) maxTokensForDoc docStride with
  | none => none
  | some spans =>
      some (buildFeatures checkIsMaxContext convertId ex exampleIndex maxSeqLength
        isTraining queryTokens allDocTokens tokToOrigIndex tokSpan spans uid0)

/-- Embedding of the RawResult record (line 209): the four per-chunk logit
arrays, with the two yes/no arrays of length 2 modelled as pairs.  Float
logits are modelled as exact rationals. -/
structure RawResult where
  unique_id : Int
  start_logits : List ℚ
  end_logits : List ℚ
  yes_no_flag_logits : ℚ × ℚ
  yes_no_ans_logits : ℚ × ℚ
deriving DecidableEq

/-- np.argmax on a length-2 array: index 1 exactly when the second entry is
strictly larger, because np.argmax returns the first index attaining the
maximum. -/
def argmax2 (p : ℚ × ℚ) : Nat := if p.1 < p.2 then 1 else 0

/-- Embedding of the PrelimPrediction namedtuple (lines 224-226);
start/end indices are integers so the (-1, -1) yes-no sentinel is
representable. -/
structure PrelimPrediction where
  feature_index : Nat
  start_index : Int
  end_index : Int
  text : Option String
  logit : ℚ
deriving DecidableEq

/-- Embedding of the NbestPrediction namedtuple (lines 294-295). -/
structure NbestPrediction where
  text : String
  logit : ℚ
deriving DecidableEq

/-- The candidate-pair filter of make_predictions (lines 265-279), in the
order the continue statements appear in the source. -/
def spanPairKeep (f : ChunkFeature) (maxAnswerLength : Nat) (s e : Nat) : Bool :=
  decide (s < f.tokens.length) && decide (e < f.tokens.length) &&
  (f.token_to_orig_map.lookup s).isSome && (f.token_to_orig_map.lookup e).isSome &&
  ((f.token_is_max_context.lookup s).getD false) &&
  decide (s ≤ e) && decide (e - s + 1 ≤ maxAnswerLength)

/-- Per-chunk preliminary predictions (lines 239-287): a single yes/no
candidate when the applicable-logit argmax selects index 1, otherwise the
filtered cross product of the given start/end index candidates. -/
def featurePrelims (featureIndex : Nat) (f : ChunkFeature) (r : RawResult)
    (startIndexes endIndexes : List Nat) (maxAnswerLength : Nat) :
    List PrelimPrediction :=
  if argmax2 r.yes_no_flag_logits = 1 then
    if argmax2 r.yes_no_ans_logits = 1 then
      [⟨featureIndex, -1, -1, some "yes",
        r.yes_no_flag_logits.2 + r.yes_no_ans_logits.2⟩]
    else
      [⟨featureIndex, -1, -1, some "no",
        r.yes_no_flag_logits.2 + r.yes_no_ans_logits.1⟩]
  else
    startIndexes.flatMap (fun s =>
      endIndexes.filterMap (fun e =>
        if spanPairKeep f maxAnswerLength s e then
          some ⟨featureIndex, (s : Int), (e : Int), none,
            r.yes_no_flag_logits.1 + r.start_logits.getD s 0 + r.end_logits.getD e 0⟩
        else none))

/-- unique_id_to_result dict lookup (lines 220-222, 236); Python dict
construction keeps the last result for a duplicated unique_id. -/
def lookupResult (allResults : List RawResult) (uid : Int) : Option RawResult :=
  allResults.reverse.find? (fun r => r.unique_id == uid)

/-- All preliminary predictions of one example's features (lines 234-287).
none models the KeyError raised when a chunk has no model output.  The
external _get_best_indexes utility is an opaque parameter. -/
def examplePrelims (getBestIndexes : List ℚ → Nat → List Nat)
    (features : List ChunkFeature) (allResults : List RawResult)
    (nBestSize maxAnswerLength : Nat) : Option (List PrelimPrediction) :=
  (features.enum.mapM (fun p =>
    (lookupResult allResults p.2.unique_id).map (fun r =>
      featurePrelims p.1 p.2 r (getBestIndexes r.start_logits nBestSize)
        (getBestIndexes r.end_logits nBestSize) maxAnswerLength))).map List.flatten

/-- Stable insertion into a list already sorted by descending logit: skip
over strictly larger logits only, so an element coming earlier in the
input ends up before every element it ties with, exactly where Python's
stable sorted(..., key=logit, reverse=True) puts it. -/
def insertByLogit (p : PrelimPrediction) :
    List PrelimPrediction → List PrelimPrediction
  | [] => [p]
  | q :: rest =>
    if p.logit < q.logit then q :: insertByLogit p rest else p :: q :: rest

/-- Python sorted(prelim_predictions, key=lambda x: x.logit, reverse=True)
(lines 289-292).  sorted is specified to be stable, and a stable descending
sort of a list is unique, so this insertion sort computes the same list. -/
def sortPrelims : List PrelimPrediction → List PrelimPrediction
  | [] => []
  | p :: rest => insertByLogit p (sortPrelims rest)

/-- Python tok_text.split(): split on whitespace runs, dropping empties. -/
def pySplitWhitespace (s : String) : List String :=
  (s.split Char.isWhitespace).filter (fun t => t ≠ "")

/-- WordPiece de-tokenization and whitespace cleanup (lines 314-322). -/
def cleanTokText (s : String) : String :=
  let s1 := (s.replace " ##" "").replace "##" ""
  String.intercalate " " (pySplitWhitespace s1.trim)

/-- Placeholder feature used to model the (never-taken, for in-range
feature_index values) out-of-bounds fallback of features[...]. -/
def emptyChunkFeature : ChunkFeature :=
  ⟨0, 0, 0, [], [], [], [], [], [], none, none, none, none⟩

/-- Realizing a candidate's final text (lines 305-325): the literal text for
the yes/no sentinel, otherwise de-tokenization of the token slice plus
reconciliation against the original document text through the external
get_final_text utility. -/
def realizeText (getFinalText : String → String → Bool → String)
    (doLowerCase : Bool) (docTokens : List String)
    (features : List ChunkFeature) (p : PrelimPrediction) : String :=
  if p.start_index = -1 ∨ p.end_index = -1 then
    p.text.getD ""
  else
    let f := features.getD p.feature_index emptyChunkFeature
    let s := p.start_index.toNat
    let e := p.end_index.toNat
    let tokTokens := (f.tokens.drop s).take (e + 1 - s)
    let origDocStart := (f.token_to_orig_map.lookup s).getD 0
    let origDocEnd := (f.token_to_orig_map.lookup e).getD 0
    let origTokens := (docTokens.drop origDocStart).take (origDocEnd + 1 - origDocStart)
    let tokText := cleanTokText (String.intercalate " " tokTokens)
    let origText := String.intercalate " " origTokens
    getFinalText tokText origText doLowerCase

/-- The n-best selection loop (lines 300-338): stop when n_best_size entries
are kept, skip candidates whose realized text is already kept (the
seen_predictions keys are exactly the kept texts), and in validate mode
stop right after the first kept entry. -/
def nbestLoop (realize : PrelimPrediction → String) (nBestSize : Nat)
    (validateFlag : Bool) :
    List PrelimPrediction → List NbestPrediction → List NbestPrediction
  | [], nbest => nbest
  | p :: rest, nbest =>
    if nBestSize ≤ nbest.length then nbest
    else if (nbest.map NbestPrediction.text).contains (realize p) then
      nbestLoop realize nBestSize validateFlag rest nbest
    else if validateFlag then
      nbest ++ [⟨realize p, p.logit⟩]
    else
      nbestLoop realize nBestSize validateFlag rest (nbest ++ [⟨realize p, p.logit⟩])

/-- Per-example n-best assembly (lines 289-346): sort, de-duplicate, and
fall back to the single "empty"/0.0 placeholder when nothing was kept. -/
def exampleNbest (realize : PrelimPrediction → String) (nBestSize : Nat)
    (validateFlag : Bool) (prelims : List PrelimPrediction) :
    List NbestPrediction :=
  if nbestLoop realize nBestSize validateFlag (sortPrelims prelims) [] = [] then
    [⟨"empty", 0⟩]
  else
    nbestLoop realize nBestSize validateFlag (sortPrelims prelims) []

/-- The single answer recorded for one example in validate mode
(line 349): the text of the first n-best entry. -/
def validateAnswer (getFinalText : String → String → Bool → String)
    (getBestIndexes : List ℚ → Nat → List Nat) (ex : CoQAExample)
    (features : List ChunkFeature) (allResults : List RawResult)
    (nBestSize maxAnswerLength : Nat) (doLowerCase : Bool) : Option String :=
  (examplePrelims getBestIndexes features allResults nBestSize maxAnswerLength).map
    (fun prelims =>
      ((exampleNbest (realizeText getFinalText doLowerCase ex.doc_tokens features)
          nBestSize true prelims).headD ⟨"empty", 0⟩).text)

/-- Python dict assignment d[k] = v: overwrite in place when the key is
present, else append. -/
def dictInsert {K V : Type} [DecidableEq K] (k : K) (v : V) :
    List (K × V) → List (K × V)
  | [] => [(k, v)]
  | (k0, v0) :: rest =>
    if k0 = k then (k, v) :: rest else (k0, v0) :: dictInsert k v rest

/-- Python dict lookup d[k] (keys are unique by construction). -/
def dictFind {K V : Type} [DecidableEq K] (k : K) (d : List (K × V)) : Option V :=
  (d.find? (fun kv => decide (kv.1 = k))).map (fun kv => kv.2)

/-- One iteration of the per-example loop of make_predictions in validate
mode: decode example p.2 (whose index is p.1), then store its answer under
(paragraph_id, turn_id). -/
def validateStep (getFinalText : String → String → Bool → String)
    (getBestIndexes : List ℚ → Nat → List Nat) (allFeatures : List ChunkFeature)
    (allResults : List RawResult) (nBestSize maxAnswerLength : Nat)
    (doLowerCase : Bool) (d : List ((String × Int) × String))
    (p : Nat × CoQAExample) : Option (List ((String × Int) × String)) :=
  (validateAnswer getFinalText getBestIndexes p.2
      (allFeatures.filter (fun f => f.example_index == p.1)) allResults
      nBestSize maxAnswerLength doLowerCase).map
    (fun t => dictInsert (p.2.paragraph_id, p.2.turn_id) t d)

/-- make_predictions with validate_flag=True (lines 213-349, 384-385):
group features by example index, decode each example and record its top-1
text in a dict keyed by (paragraph_id, turn_id). -/
def makeValidatePredictions (getFinalText : String → String → Bool → String)
    (getBestIndexes : List ℚ → Nat → List Nat) (allExamples : List CoQAExample)
    (allFeatures : List ChunkFeature) (allResults : List RawResult)
    (nBestSize maxAnswerLength : Nat) (doLowerCase : Bool) :
    Option (List ((String × Int) × String)) :=
  allExamples.enum.foldlM
    (validateStep getFinalText getBestIndexes allFeatures allResults
      nBestSize maxAnswerLength doLowerCase)
    []

/-- C2 counterexample: the claim fails as stated.  For L = 0 (with B = 4,
S = 2) the loop body never runs and zero windows are produced, not one;
and for L = 10, B = 2, S = 5 the loop advances by min(length, stride) =
min(2, 5) = 2 each iteration and produces 5 windows, not
ceil((L-B)/S)+1 = 3. -/
theorem C2_counterexample :
    (∃ ws, docSpans 0 4 2 = some ws ∧ ws.length ≠ 1) ∧
    (∃ ws, docSpans 10 2 5 = some ws ∧ (ws.length : Int) ≠ ceilDiv (10 - 2) 5 + 1) := by
  refine ⟨⟨[], by decide, by decide⟩,
    ⟨[⟨0, 2⟩, ⟨2, 2⟩, ⟨4, 2⟩, ⟨6, 2⟩, ⟨8, 2⟩], by decide, by decide⟩⟩

/-- C2 amended: with window budget B ≥ 1 and stride S ≥ 1, the sliding
window loop produces exactly ceil((L-B)/min(B,S))+1 windows when L > B
(the loop steps by min(window_length, stride) = min(B, S), not by S),
exactly one window when 1 ≤ L ≤ B, and zero windows when L = 0; whenever
L ≥ 1 the last produced window w satisfies w.start + w.length = L, i.e. it
ends exactly at subword token L-1. -/
theorem C2_window_count (L B S : Int) (hL : 0 ≤ L) (hB : 1 ≤ B) (hS : 1 ≤ S) :
    ∃ ws, docSpans L B S = some ws ∧
      (L = 0 → ws = []) ∧
      (1 ≤ L → L ≤ B → ws.length = 1) ∧
      (B < L → (ws.length : Int) = ceilDiv (L - B) (min B S) + 1) ∧
      (1 ≤ L → ∃ w, ws.getLast? = some w ∧ w.start + w.length = L) := by
  by_cases hL0 : L = 0
  · subst hL0
    refine ⟨[], by simp [docSpans, windowLoop], fun _ => rfl,
      fun h => absurd h (by norm_num), fun h => absurd hB (by omega),
      fun h => absurd h (by norm_num)⟩
  · have hL1 : 1 ≤ L := by omega
    obtain ⟨ws, hws, _, hlast, _, hcount⟩ :=
      windowLoop_sound L B S hB hS (L.toNat + 1) 0 le_rfl (by omega) (by omega)
    refine ⟨ws, hws, fun h => absurd h hL0, ?_, ?_, fun _ => hlast⟩
    · intro _ hLB
      have : (ws.length : Int) = 1 := by
        rw [hcount, if_pos (by omega)]
      omega
    · intro hBL
      rw [hcount, if_neg (by omega)]
      have he : L - 0 - B = L - B := by ring
      rw [he]

/-- C2 amended, witnessed at L = 10, B = 4, S = 3. -/
theorem C2_window_count_witness :
    ∃ ws, docSpans 10 4 3 = some ws ∧
      ((10 : Int) = 0 → ws = []) ∧
      ((1 : Int) ≤ 10 → (10 : Int) ≤ 4 → ws.length = 1) ∧
      ((4 : Int) < 10 → (ws.length : Int) = ceilDiv (10 - 4) (min 4 3) + 1) ∧
      ((1 : Int) ≤ 10 → ∃ w, ws.getLast? = some w ∧ w.start + w.length = 10) :=
  C2_window_count 10 4 3 (by norm_num) (by norm_num) (by norm_num)

/-- C3 confirmed: for any non-empty subword document with positive budget
and stride, the generated windows start at offset 0 and follow the
described recursion (each window of length min(B, L - start), stop when the
window reaches the end, else advance by min(length, stride)); in
particular for an 8-token document with budget 4 and stride 2 exactly the
windows (0,4), (2,4), (4,4) are produced, covering subword ranges [0-3],
[2-5] and [4-7]. -/
theorem C3_window_generation (L B S : Int) (hL : 1 ≤ L) (hB : 1 ≤ B) (hS : 1 ≤ S) :
    (∃ ws, docSpans L B S = some ws ∧ SpecWindows L B S 0 ws) ∧
    docSpans 8 4 2 = some [⟨0, 4⟩, ⟨2, 4⟩, ⟨4, 4⟩] := by
  refine ⟨?_, by decide⟩
  obtain ⟨ws, hws, hspec, _⟩ :=
    windowLoop_sound L B S hB hS (L.toNat + 1) 0 le_rfl (by omega) (by omega)
  exact ⟨ws, hws, hspec⟩

/-- C3, witnessed at the scenario configuration L = 8, B = 4, S = 2. -/
theorem C3_window_generation_witness :
    (∃ ws, docSpans 8 4 2 = some ws ∧ SpecWindows 8 4 2 0 ws) ∧
    docSpans 8 4 2 = some [⟨0, 4⟩, ⟨2, 4⟩, ⟨4, 4⟩] :=
  C3_window_generation 8 4 2 (by norm_num) (by norm_num) (by norm_num)

/-- C10 counterexample: the claim also asserts termination whenever the
budget is positive, but with budget 1, stride 0 and a 2-token document the
loop advances by min(length, stride) = 0 every iteration and never
terminates, so positive budget alone does not give termination. -/
theorem C10_counterexample : loopStuck 2 1 0 := by
  intro fuel
  induction fuel with
  | zero => rfl
  | succ n ih =>
    have step : windowLoop 2 1 0 (n + 1) 0 =
        (match windowLoop 2 1 0 n 0 with
          | none => none
          | some rest => some (⟨0, 1⟩ :: rest)) := rfl
    rw [step, ih]

/-- C10 amended: the sliding-window loop terminates for every example whose
subword document is empty or whose budget and stride are both at least 1
(L + 1 iterations suffice); conversely, for a document of at least one
subword token and a non-positive budget the loop never terminates, since
the window length becomes the non-positive budget and the start offset
advances by min(length, stride) ≤ 0 each iteration. -/
theorem C10_termination (L B S : Int) (hL : 0 ≤ L) :
    ((L = 0 ∨ (1 ≤ B ∧ 1 ≤ S)) → ∃ ws, docSpans L B S = some ws) ∧
    (1 ≤ L → B ≤ 0 → loopStuck L B S) := by
  constructor
  · rintro (hL0 | ⟨hB, hS⟩)
    · subst hL0
      exact ⟨[], by simp [docSpans, windowLoop]⟩
    · by_cases hL0 : L = 0
      · subst hL0
        exact ⟨[], by simp [docSpans, windowLoop]⟩
      · obtain ⟨ws, hws, _⟩ :=
          windowLoop_sound L B S hB hS (L.toNat + 1) 0 le_rfl (by omega) (by omega)
        exact ⟨ws, hws⟩
  · intro hL1 hB0 fuel
    exact windowLoop_stuck L B S hL1 hB0 fuel 0 le_rfl

/-- C10 amended, witnessed at a terminating configuration (L = 4, B = 2,
S = 2) and a diverging one (L = 1, B = 0, any stride). -/
theorem C10_termination_witness :
    (∃ ws, docSpans 4 2 2 = some ws) ∧ loopStuck 1 0 1 :=
  ⟨(C10_termination 4 2 2 (by norm_num)).1 (Or.inr ⟨by norm_num, by norm_num⟩),
   (C10_termination 1 0 1 (by norm_num)).2 (by norm_num) (by norm_num)⟩

theorem getLast?_eq_append {α : Type} :
    ∀ (l : List α) (a : α), l.getLast? = some a → ∃ t, l = t ++ [a] := by
  intro l
  induction l with
  | nil => intro a h; cases h
  | cons x rest ih =>
    intro a h
    cases rest with
    | nil =>
      refine ⟨[], ?_⟩
      simp only [List.getLast?_singleton, Option.some.injEq] at h
      rw [h]
      rfl
    | cons y t =>
      rw [List.getLast?_cons_cons] at h
      obtain ⟨t0, ht0⟩ := ih a h
      exact ⟨x :: t0, by rw [List.cons_append, ← ht0]⟩

/-- C4 counterexample: with reverse_history unset and max_query_length = 0,
one question tokenizing to one token yields the whole concatenation (the
Python slice flat[-0:] is flat[0:]), not the last 0 tokens. -/
theorem C4_counterexample :
    queryTokensOf (fun s => [s]) ["q"] 0 false ≠
      lastTokens 0 ((["q"].map (fun s => [s])).flatten) := by
  decide

/-- C4 amended: with reverse_history the query is the first
max_query_length tokens of the newest-first concatenation; without it and
with max_query_length ≥ 1 the query is the last max_query_length tokens of
the oldest-first concatenation (for max_query_length = 0 the code instead
keeps the entire concatenation, a Python negative-slice quirk); in both
modes every token of the current (last) turn appears in the query whenever
that turn has at most max_query_length tokens. -/
theorem C4_query_construction (tokenize : String → List String)
    (questionTexts : List String) (maxQueryLength : Nat) :
    (queryTokensOf tokenize questionTexts maxQueryLength true =
      ((questionTexts.map tokenize).reverse.flatten).take maxQueryLength) ∧
    (1 ≤ maxQueryLength →
      queryTokensOf tokenize questionTexts maxQueryLength false =
        lastTokens maxQueryLength ((questionTexts.map tokenize).flatten)) ∧
    (∀ q, questionTexts.getLast? = some q →
      (tokenize q).length ≤ maxQueryLength →
      ∀ b : Bool, ∀ t ∈ tokenize q,
        t ∈ queryTokensOf tokenize questionTexts maxQueryLength b) := by
  refine ⟨by simp [queryTokensOf], ?_, ?_⟩
  · intro hM
    simp [queryTokensOf, lastTokens, Nat.pos_iff_ne_zero.mp hM]
  · intro q hq hlen b t ht
    obtain ⟨init, hinit⟩ := getLast?_eq_append questionTexts q hq
    subst hinit
    cases b with
    | true =>
      have hmap : ((init ++ [q]).map tokenize).reverse.flatten
          = tokenize q ++ (init.map tokenize).reverse.flatten := by
        simp
      have hQ : queryTokensOf tokenize (init ++ [q]) maxQueryLength true
          = (((init ++ [q]).map tokenize).reverse.flatten).take maxQueryLength := by
        simp [queryTokensOf]
      rw [hQ, hmap, List.take_append_eq_append_take, List.take_of_length_le hlen]
      exact List.mem_append_left _ ht
    | false =>
      have hmap : ((init ++ [q]).map tokenize).flatten
          = (init.map tokenize).flatten ++ tokenize q := by
        simp
      by_cases hM : maxQueryLength = 0
      · subst hM
        have h0 : (tokenize q).length = 0 := by omega
        rw [List.eq_nil_of_length_eq_zero h0] at ht
        cases ht
      · have hQ : queryTokensOf tokenize (init ++ [q]) maxQueryLength false
            = (((init ++ [q]).map tokenize).flatten).drop
                ((((init ++ [q]).map tokenize).flatten).length - maxQueryLength) := by
          simp [queryTokensOf, hM]
        rw [hQ, hmap, List.drop_append_eq_append_drop]
        refine List.mem_append_right _ ?_
        have hd : ((init.map tokenize).flatten ++ tokenize q).length -
            maxQueryLength - (init.map tokenize).flatten.length = 0 := by
          rw [List.length_append]
          omega
        rw [hd, List.drop_zero]
        exact ht

/-- C4 amended, witnessed: history ["a", "b"] with the singleton tokenizer
and max_query_length 1 keeps exactly the current turn in both modes. -/
theorem C4_query_construction_witness :
    (queryTokensOf (fun s => [s]) ["a", "b"] 1 true =
      (((["a", "b"] : List String).map (fun s => [s])).reverse.flatten).take 1) ∧
    (1 ≤ 1 →
      queryTokensOf (fun s => [s]) ["a", "b"] 1 false =
        lastTokens 1 (((["a", "b"] : List String).map (fun s => [s])).flatten)) ∧
    (∀ q, (["a", "b"] : List String).getLast? = some q →
      ((fun (s : String) => [s]) q).length ≤ 1 →
      ∀ b : Bool, ∀ t ∈ (fun (s : String) => [s]) q,
        t ∈ queryTokensOf (fun s => [s]) ["a", "b"] 1 b) :=
  C4_query_construction (fun s => [s]) ["a", "b"] 1

theorem padZeros_length {A : Type} (z : A) (n : Nat) (l : List A) (h : l.length ≤ n) :
    (padZeros z n l).length = n := by
  simp only [padZeros, List.length_append, List.length_replicate]
  omega

theorem chunkTokens_length (queryTokens allDocTokens : List String) (w : DocSpan) :
    (chunkTokens queryTokens allDocTokens w).length
      = queryTokens.length + 3 + w.length.toNat := by
  simp [chunkTokens]
  omega

/-- C9 confirmed: when the document budget
max_seq_length - len(query_tokens) - 3 is at least 1, every window w
produced by the sliding-window loop satisfies
len(query_tokens) + 3 + w.length ≤ max_seq_length, so after zero-padding
the input_ids, input_mask and segment_ids of the corresponding chunk all
have length exactly max_seq_length and the three assertions cannot fail. -/
theorem C9_padding_lengths (maxSeqLength : Nat) (queryTokens allDocTokens : List String)
    (convertId : String → Int) (S : Int) (hS : 1 ≤ S)
    (hB : 1 ≤ (maxSeqLength : Int) - queryTokens.length - 3)
    (ws : List DocSpan)
    (hws : docSpans (allDocTokens.length : Int)
      ((maxSeqLength : Int) - queryTokens.length - 3) S = some ws)
    (w : DocSpan) (hw : w ∈ ws) :
    (padZeros (0 : Int) maxSeqLength
        ((chunkTokens queryTokens allDocTokens w).map convertId)).length = maxSeqLength ∧
    (padZeros (0 : Nat) maxSeqLength
        (List.replicate (chunkTokens queryTokens allDocTokens w).length 1)).length
      = maxSeqLength ∧
    (padZeros (0 : Nat) maxSeqLength (chunkSegmentIds queryTokens w)).length
      = maxSeqLength := by
  by_cases hL : (allDocTokens.length : Int) = 0
  · exfalso
    rw [docSpans, hL] at hws
    have hnil : windowLoop 0 ((maxSeqLength : Int) - queryTokens.length - 3) S
        ((0 : Int).toNat + 1) 0 = some [] := by
      simp [windowLoop]
    rw [hws] at hnil
    have : ws = [] := Option.some.inj hnil
    rw [this] at hw
    cases hw
  · obtain ⟨ws2, hws2, _, _, hmem, _⟩ :=
      windowLoop_sound (allDocTokens.length : Int)
        ((maxSeqLength : Int) - queryTokens.length - 3) S hB hS
        ((allDocTokens.length : Int).toNat + 1) 0 le_rfl (by omega) (by omega)
    have hws' : ws = ws2 := by
      rw [docSpans] at hws
      rw [hws2] at hws
      exact (Option.some.inj hws).symm
    subst hws'
    obtain ⟨hs0, hl1, hlB, hle⟩ := hmem w hw
    have hbound : queryTokens.length + 3 + w.length.toNat ≤ maxSeqLength := by omega
    refine ⟨?_, ?_, ?_⟩
    · rw [padZeros_length]
      rw [List.length_map, chunkTokens_length]
      omega
    · rw [padZeros_length]
      rw [List.length_replicate, chunkTokens_length]
      omega
    · rw [padZeros_length]
      simp only [chunkSegmentIds, List.length_append, List.length_replicate]
      omega

/-- C9, witnessed at max_seq_length 5 with an empty query and a one-token
document (budget 2, stride 1). -/
theorem C9_padding_lengths_witness :
    (padZeros (0 : Int) 5
        ((chunkTokens [] ["a"] ⟨0, 1⟩).map (fun _ => (0 : Int)))).length = 5 ∧
    (padZeros (0 : Nat) 5
        (List.replicate (chunkTokens [] ["a"] ⟨0, 1⟩).length 1)).length = 5 ∧
    (padZeros (0 : Nat) 5 (chunkSegmentIds [] ⟨0, 1⟩)).length = 5 :=
  C9_padding_lengths 5 [] ["a"] (fun _ => (0 : Int)) 1 (by norm_num) (by norm_num)
    [⟨0, 1⟩] (by decide) ⟨0, 1⟩ (List.mem_singleton.mpr rfl)

/-- Concrete tokenizer for the C1 failing input: the original tokens "aa"
and "bb" re-tokenize to two subwords each; the empty question text
tokenizes to nothing. -/
def c1Tokenize : String → List String :=
  fun s => if s = "aa" then ["a", "x"] else if s = "bb" then ["b", "y"] else []

/-- The C1 failing example: document ["aa", "bb"], gold original-token span
(1, 1) (the token "bb"), one empty question. -/
def c1Example : CoQAExample :=
  ⟨[""], ["aa", "bb"], 1, 1, "bb", 0, 0, "p", 1⟩

/-- C1 failing input, evaluated.  With max_seq_length 5 (budget 2) and
stride 2 the document [a, x, b, y] is split into windows (0,2) and (2,2),
and the gold answer re-maps to subword span (2, 3), which lies entirely in
window (2,2) and not in window (0,2).  The claim therefore requires
exactly one chunk, for doc_span_index 1, with chunk-local positions
(2, 3).  The code instead filters with the original-token span (1, 1)
against subword window bounds: it emits exactly one chunk, for
doc_span_index 0, whose start/end positions (4, 5) point at the trailing
[SEP] and even past the whole 5-token sequence. -/
theorem C1_training_filter_bug :
    tokAnswerSpan (fun _ s e _ => (s, e)) c1Example [0, 2] ["a", "x", "b", "y"]
      = (2, 3) ∧
    docSpans 4 2 2 = some [⟨0, 2⟩, ⟨2, 2⟩] ∧
    (convertExample c1Tokenize (fun _ s e _ => (s, e)) (fun _ _ _ => true)
        (fun _ => 1) c1Example 0 5 2 5 true false 1000).map
        (fun r => r.1.map
          (fun f => (f.doc_span_index, f.start_position, f.end_position, f.tokens.length)))
      = some [(0, some 4, some 5, 5)] := by
  refine ⟨by decide, by decide, by decide⟩

theorem spanPairKeep_iff (f : ChunkFeature) (maxAnswerLength s e : Nat) :
    spanPairKeep f maxAnswerLength s e = true ↔
      (s < f.tokens.length ∧ e < f.tokens.length ∧
       (f.token_to_orig_map.lookup s).isSome = true ∧
       (f.token_to_orig_map.lookup e).isSome = true ∧
       (f.token_is_max_context.lookup s).getD false = true ∧
       s ≤ e ∧ e - s + 1 ≤ maxAnswerLength) := by
  simp [spanPairKeep, Bool.and_eq_true, decide_eq_true_eq, and_assoc]

/-- C5 confirmed: for a chunk classified span-extractive (applicable-logit
argmax is not 1), a pair drawn from the given start/end candidate index
lists yields a preliminary prediction exactly when both indices are below
the chunk's token count, both are keys of token_to_orig_map,
token_is_max_context holds at the start index, end ≥ start and the span
length is at most max_answer_length; the surviving pair's logit is
yes_no_flag_logits[0] + start_logits[start] + end_logits[end]. -/
theorem C5_span_candidates (featureIndex : Nat) (f : ChunkFeature) (r : RawResult)
    (startIndexes endIndexes : List Nat) (maxAnswerLength : Nat)
    (hflag : argmax2 r.yes_no_flag_logits ≠ 1) (p : PrelimPrediction) :
    p ∈ featurePrelims featureIndex f r startIndexes endIndexes maxAnswerLength ↔
      ∃ s ∈ startIndexes, ∃ e ∈ endIndexes,
        s < f.tokens.length ∧ e < f.tokens.length ∧
        (f.token_to_orig_map.lookup s).isSome = true ∧
        (f.token_to_orig_map.lookup e).isSome = true ∧
        (f.token_is_max_context.lookup s).getD false = true ∧
        s ≤ e ∧ e - s + 1 ≤ maxAnswerLength ∧
        p = ⟨featureIndex, (s : Int), (e : Int), none,
          r.yes_no_flag_logits.1 + r.start_logits.getD s 0 + r.end_logits.getD e 0⟩ := by
  unfold featurePrelims
  rw [if_neg hflag]
  simp only [List.mem_flatMap, List.mem_filterMap]
  constructor
  · rintro ⟨s, hs, e, he, hif⟩
    refine ⟨s, hs, e, he, ?_⟩
    by_cases hkeep : spanPairKeep f maxAnswerLength s e
    · obtain ⟨h1, h2, h3, h4, h5, h6, h7⟩ := (spanPairKeep_iff f maxAnswerLength s e).mp hkeep
      rw [if_pos hkeep] at hif
      exact ⟨h1, h2, h3, h4, h5, h6, h7, (Option.some.inj hif).symm⟩
    · rw [if_neg hkeep] at hif
      cases hif
  · rintro ⟨s, hs, e, he, h1, h2, h3, h4, h5, h6, h7, rfl⟩
    refine ⟨s, hs, e, he, ?_⟩
    rw [if_pos ((spanPairKeep_iff f maxAnswerLength s e).mpr ⟨h1, h2, h3, h4, h5, h6, h7⟩)]

/-- A concrete span-extractive chunk used to witness C5: one document
token at chunk position 3, owned by this chunk. -/
def c5Feature : ChunkFeature :=
  ⟨0, 0, 0, ["[CLS]", "q", "[SEP]", "d", "[SEP]"], [(3, 0)], [(3, true)],
    [], [], [], none, none, none, none⟩

/-- A concrete span-extractive model output used to witness C5. -/
def c5Result : RawResult := ⟨0, [], [], (1, 0), (0, 0)⟩

/-- C5, witnessed at a concrete chunk with candidate pair (3, 3). -/
theorem C5_span_candidates_witness :
    (⟨0, (3 : Int), (3 : Int), none,
        c5Result.yes_no_flag_logits.1 + c5Result.start_logits.getD 3 0 +
          c5Result.end_logits.getD 3 0⟩ : PrelimPrediction) ∈
      featurePrelims 0 c5Feature c5Result [3] [3] 2 ↔
      ∃ s ∈ [3], ∃ e ∈ [3],
        s < c5Feature.tokens.length ∧ e < c5Feature.tokens.length ∧
        (c5Feature.token_to_orig_map.lookup s).isSome = true ∧
        (c5Feature.token_to_orig_map.lookup e).isSome = true ∧
        (c5Feature.token_is_max_context.lookup s).getD false = true ∧
        s ≤ e ∧ e - s + 1 ≤ 2 ∧
        (⟨0, (3 : Int), (3 : Int), none,
          c5Result.yes_no_flag_logits.1 + c5Result.start_logits.getD 3 0 +
            c5Result.end_logits.getD 3 0⟩ : PrelimPrediction)
          = ⟨0, (s : Int), (e : Int), none,
            c5Result.yes_no_flag_logits.1 + c5Result.start_logits.getD s 0 +
              c5Result.end_logits.getD e 0⟩ :=
  C5_span_candidates 0 c5Feature c5Result [3] [3] 2 (by decide) _

/-- C6 confirmed: a chunk whose applicable-logit argmax selects index 1
produces exactly one preliminary prediction, with sentinel indices (-1, -1),
text "yes" exactly when the answer-logit argmax selects index 1 (else
"no"), and logit yes_no_flag_logits[1] + yes_no_ans_logits[selected]; no
span candidates are generated.  In particular applicable logits
(0.1, 0.9) with answer logits (0.2, 0.8) give "yes" with score 1.7. -/
theorem C6_yes_no_prediction (featureIndex : Nat) (f : ChunkFeature) (r : RawResult)
    (startIndexes endIndexes : List Nat) (maxAnswerLength : Nat)
    (hflag : argmax2 r.yes_no_flag_logits = 1) :
    featurePrelims featureIndex f r startIndexes endIndexes maxAnswerLength
      = [⟨featureIndex, -1, -1,
          some (if argmax2 r.yes_no_ans_logits = 1 then "yes" else "no"),
          r.yes_no_flag_logits.2 +
            (if argmax2 r.yes_no_ans_logits = 1 then r.yes_no_ans_logits.2
             else r.yes_no_ans_logits.1)⟩] ∧
    featurePrelims 0 emptyChunkFeature
        ⟨0, [], [], (1/10, 9/10), (2/10, 8/10)⟩ [] [] 0
      = [⟨0, -1, -1, some "yes", 17/10⟩] := by
  constructor
  · unfold featurePrelims
    rw [if_pos hflag]
    by_cases hans : argmax2 r.yes_no_ans_logits = 1
    · simp only [if_pos hans]
    · simp only [if_neg hans]
  · have h1 : argmax2 ((1 : ℚ)/10, (9 : ℚ)/10) = 1 := by
      unfold argmax2
      rw [if_pos (by norm_num)]
    have h2 : argmax2 ((2 : ℚ)/10, (8 : ℚ)/10) = 1 := by
      unfold argmax2
      rw [if_pos (by norm_num)]
    unfold featurePrelims
    rw [if_pos h1, if_pos h2]
    have h3 : (9 : ℚ)/10 + 8/10 = 17/10 := by norm_num
    simp only [h3]

/-- C6, witnessed at the scenario logits. -/
theorem C6_yes_no_prediction_witness :
    featurePrelims 0 emptyChunkFeature
        ⟨0, [], [], (1/10, 9/10), (2/10, 8/10)⟩ [] [] 0
      = [⟨0, -1, -1,
          some (if argmax2 ((2 : ℚ)/10, (8 : ℚ)/10) = 1 then "yes" else "no"),
          (9 : ℚ)/10 +
            (if argmax2 ((2 : ℚ)/10, (8 : ℚ)/10) = 1 then (8 : ℚ)/10
             else (2 : ℚ)/10)⟩] :=
  (C6_yes_no_prediction 0 emptyChunkFeature
    ⟨0, [], [], (1/10, 9/10), (2/10, 8/10)⟩ [] [] 0
    (by unfold argmax2; rw [if_pos (by norm_num)])).1

/-- C8 confirmed: per-example decoding always yields at least one entry;
whenever the selection loop keeps nothing (in particular when there are no
preliminary predictions at all), the single placeholder ("empty", 0.0) is
produced. -/
theorem C8_empty_fallback (realize : PrelimPrediction → String) (nBestSize : Nat)
    (validateFlag : Bool) (prelims : List PrelimPrediction) :
    exampleNbest realize nBestSize validateFlag prelims ≠ [] ∧
    (nbestLoop realize nBestSize validateFlag (sortPrelims prelims) [] = [] →
      exampleNbest realize nBestSize validateFlag prelims = [⟨"empty", 0⟩]) ∧
    (prelims = [] →
      exampleNbest realize nBestSize validateFlag prelims = [⟨"empty", 0⟩]) := by
  refine ⟨?_, ?_, ?_⟩
  · unfold exampleNbest
    by_cases h : nbestLoop realize nBestSize validateFlag (sortPrelims prelims) [] = []
    · rw [if_pos h]
      simp
    · rw [if_neg h]
      exact h
  · intro h
    unfold exampleNbest
    rw [if_pos h]
  · intro h
    subst h
    rfl

/-- C8, witnessed at an empty preliminary-prediction list. -/
theorem C8_empty_fallback_witness :
    exampleNbest (fun _ => "t") 1 true [] ≠ [] ∧
    exampleNbest (fun _ => "t") 1 true [] = [⟨"empty", 0⟩] :=
  ⟨(C8_empty_fallback (fun _ => "t") 1 true []).1,
   (C8_empty_fallback (fun _ => "t") 1 true []).2.2 rfl⟩

theorem nbestLoop_text_nodup (realize : PrelimPrediction → String) (nBestSize : Nat)
    (validateFlag : Bool) :
    ∀ (ps : List PrelimPrediction) (acc : List NbestPrediction),
      (acc.map NbestPrediction.text).Nodup →
      ((nbestLoop realize nBestSize validateFlag ps acc).map NbestPrediction.text).Nodup := by
  intro ps
  induction ps with
  | nil =>
    intro acc h
    exact h
  | cons p rest ih =>
    intro acc h
    unfold nbestLoop
    by_cases h1 : nBestSize ≤ acc.length
    · rw [if_pos h1]
      exact h
    · rw [if_neg h1]
      by_cases h2 : (acc.map NbestPrediction.text).contains (realize p) = true
      · rw [if_pos h2]
        exact ih acc h
      · rw [if_neg h2]
        have hnotmem : realize p ∉ acc.map NbestPrediction.text := by
          generalize acc.map NbestPrediction.text = l at h2
          simp at h2
          exact h2
        have hacc : ((acc ++ [(⟨realize p, p.logit⟩ : NbestPrediction)]).map
            NbestPrediction.text).Nodup := by
          rw [List.map_append, List.nodup_append]
          refine ⟨h, by simp, ?_⟩
          intro a ha hb
          simp only [List.map_cons, List.map_nil, List.mem_singleton] at hb
          subst hb
          exact hnotmem ha
        by_cases h3 : validateFlag = true
        · rw [if_pos h3]
          exact hacc
        · rw [if_neg h3]
          exact ih _ hacc

theorem nbestLoop_length_le (realize : PrelimPrediction → String) (nBestSize : Nat)
    (validateFlag : Bool) :
    ∀ (ps : List PrelimPrediction) (acc : List NbestPrediction),
      (nbestLoop realize nBestSize validateFlag ps acc).length ≤ max nBestSize acc.length := by
  intro ps
  induction ps with
  | nil =>
    intro acc
    exact le_max_right _ _
  | cons p rest ih =>
    intro acc
    unfold nbestLoop
    by_cases h1 : nBestSize ≤ acc.length
    · rw [if_pos h1]
      exact le_max_right _ _
    · rw [if_neg h1]
      by_cases h2 : (acc.map NbestPrediction.text).contains (realize p) = true
      · rw [if_pos h2]
        exact ih acc
      · rw [if_neg h2]
        by_cases h3 : validateFlag = true
        · rw [if_pos h3]
          simp only [List.length_append, List.length_singleton]
          omega
        · rw [if_neg h3]
          have := ih (acc ++ [⟨realize p, p.logit⟩])
          simp only [List.length_append, List.length_singleton] at this
          omega

theorem nbestLoop_validate_short (realize : PrelimPrediction → String) (nBestSize : Nat) :
    ∀ (ps : List PrelimPrediction) (acc : List NbestPrediction),
      (nbestLoop realize nBestSize true ps acc).length ≤ acc.length + 1 := by
  intro ps
  induction ps with
  | nil =>
    intro acc
    exact Nat.le_succ _
  | cons p rest ih =>
    intro acc
    unfold nbestLoop
    by_cases h1 : nBestSize ≤ acc.length
    · rw [if_pos h1]
      omega
    · rw [if_neg h1]
      by_cases h2 : (acc.map NbestPrediction.text).contains (realize p) = true
      · rw [if_pos h2]
        exact ih acc
      · rw [if_neg h2, if_pos rfl]
        simp

theorem dictFind_insert_self {K V : Type} [DecidableEq K] (k : K) (v : V) :
    ∀ d : List (K × V), dictFind k (dictInsert k v d) = some v := by
  intro d
  induction d with
  | nil => simp [dictInsert, dictFind]
  | cons kv rest ih =>
    unfold dictInsert
    by_cases h : kv.1 = k
    · rw [if_pos h]
      simp [dictFind]
    · rw [if_neg h]
      unfold dictFind
      rw [List.find?_cons_of_neg _ (by simpa using h)]
      exact ih

theorem dictFind_insert_other {K V : Type} [DecidableEq K] (k k0 : K) (v : V)
    (hne : k0 ≠ k) :
    ∀ d : List (K × V), dictFind k (dictInsert k0 v d) = dictFind k d := by
  intro d
  induction d with
  | nil =>
    simp [dictInsert, dictFind, List.find?_cons_of_neg, hne]
  | cons kv rest ih =>
    unfold dictInsert
    by_cases h : kv.1 = k0
    · rw [if_pos h]
      unfold dictFind
      rw [List.find?_cons_of_neg _ (by simpa using hne),
        List.find?_cons_of_neg _ (by simp [h, hne])]
    · rw [if_neg h]
      unfold dictFind
      by_cases h2 : kv.1 = k
      · rw [List.find?_cons_of_pos _ (by simpa using h2),
          List.find?_cons_of_pos _ (by simpa using h2)]
      · rw [List.find?_cons_of_neg _ (by simpa using h2),
          List.find?_cons_of_neg _ (by simpa using h2)]
        exact ih

theorem validateFold_preserve (getFinalText : String → String → Bool → String)
    (getBestIndexes : List ℚ → Nat → List Nat) (allFeatures : List ChunkFeature)
    (allResults : List RawResult) (nBestSize maxAnswerLength : Nat) (doLowerCase : Bool) :
    ∀ (exs : List CoQAExample) (start : Nat) (d dict : List ((String × Int) × String))
      (k : String × Int),
      (exs.enumFrom start).foldlM
        (validateStep getFinalText getBestIndexes allFeatures allResults
          nBestSize maxAnswerLength doLowerCase) d = some dict →
      (∀ ex ∈ exs, (ex.paragraph_id, ex.turn_id) ≠ k) →
      dictFind k dict = dictFind k d := by
  intro exs
  induction exs with
  | nil =>
    intro start d dict k hfold hne
    rw [← Option.some.inj hfold]
  | cons ex rest ih =>
    intro start d dict k hfold hne
    rw [show List.enumFrom start (ex :: rest)
        = (start, ex) :: List.enumFrom (start + 1) rest from rfl,
      List.foldlM_cons] at hfold
    cases hstep : validateStep getFinalText getBestIndexes allFeatures allResults
        nBestSize maxAnswerLength doLowerCase d (start, ex) with
    | none =>
      rw [hstep] at hfold
      cases hfold
    | some d2 =>
      rw [hstep] at hfold
      have hrest : (List.enumFrom (start + 1) rest).foldlM
          (validateStep getFinalText getBestIndexes allFeatures allResults
            nBestSize maxAnswerLength doLowerCase) d2 = some dict := hfold
      unfold validateStep at hstep
      cases hva : validateAnswer getFinalText getBestIndexes ex
          (allFeatures.filter (fun f => f.example_index == start)) allResults
          nBestSize maxAnswerLength doLowerCase with
      | none =>
        rw [hva] at hstep
        cases hstep
      | some t0 =>
        rw [hva] at hstep
        have hd2 : d2 = dictInsert (ex.paragraph_id, ex.turn_id) t0 d :=
          (Option.some.inj hstep).symm
        rw [ih (start + 1) d2 dict k hrest (fun e2 h2 => hne e2 (List.mem_cons_of_mem _ h2)),
          hd2, dictFind_insert_other _ _ _ (hne ex (List.mem_cons_self _ _))]

theorem validateFold_find (getFinalText : String → String → Bool → String)
    (getBestIndexes : List ℚ → Nat → List Nat) (allFeatures : List ChunkFeature)
    (allResults : List RawResult) (nBestSize maxAnswerLength : Nat) (doLowerCase : Bool) :
    ∀ (exs : List CoQAExample) (start : Nat) (d dict : List ((String × Int) × String)),
      (exs.enumFrom start).foldlM
        (validateStep getFinalText getBestIndexes allFeatures allResults
          nBestSize maxAnswerLength doLowerCase) d = some dict →
      ((exs.map (fun e => (e.paragraph_id, e.turn_id))).Nodup) →
      ∀ (j : Nat) (hj : j < exs.length),
        dictFind ((exs.get ⟨j, hj⟩).paragraph_id, (exs.get ⟨j, hj⟩).turn_id) dict
          = validateAnswer getFinalText getBestIndexes (exs.get ⟨j, hj⟩)
              (allFeatures.filter (fun f => f.example_index == start + j)) allResults
              nBestSize maxAnswerLength doLowerCase := by
  intro exs
  induction exs with
  | nil =>
    intro start d dict hfold hnd j hj
    exact absurd hj (by simp)
  | cons ex rest ih =>
    intro start d dict hfold hnd j hj
    rw [show List.enumFrom start (ex :: rest)
        = (start, ex) :: List.enumFrom (start + 1) rest from rfl,
      List.foldlM_cons] at hfold
    cases hstep : validateStep getFinalText getBestIndexes allFeatures allResults
        nBestSize maxAnswerLength doLowerCase d (start, ex) with
    | none =>
      rw [hstep] at hfold
      cases hfold
    | some d2 =>
      rw [hstep] at hfold
      have hrest : (List.enumFrom (start + 1) rest).foldlM
          (validateStep getFinalText getBestIndexes allFeatures allResults
            nBestSize maxAnswerLength doLowerCase) d2 = some dict := hfold
      unfold validateStep at hstep
      cases hva : validateAnswer getFinalText getBestIndexes ex
          (allFeatures.filter (fun f => f.example_index == start)) allResults
          nBestSize maxAnswerLength doLowerCase with
      | none =>
        rw [hva] at hstep
        cases hstep
      | some t0 =>
        rw [hva] at hstep
        have hd2 : d2 = dictInsert (ex.paragraph_id, ex.turn_id) t0 d :=
          (Option.some.inj hstep).symm
        simp only [List.map_cons, List.nodup_cons] at hnd
        obtain ⟨hnotin, hnd2⟩ := hnd
        cases j with
        | zero =>
          have hkeys2 : ∀ e2 ∈ rest, (e2.paragraph_id, e2.turn_id)
              ≠ (ex.paragraph_id, ex.turn_id) := by
            intro e2 h2 heq
            exact hnotin (heq ▸ List.mem_map.mpr ⟨e2, h2, rfl⟩)
          have hpres := validateFold_preserve getFinalText getBestIndexes allFeatures
            allResults nBestSize maxAnswerLength doLowerCase rest (start + 1) d2 dict
            (ex.paragraph_id, ex.turn_id) hrest hkeys2
          rw [show (ex :: rest).get ⟨0, hj⟩ = ex from rfl, hpres, hd2,
            dictFind_insert_self, Nat.add_zero]
          exact hva.symm
        | succ j0 =>
          have hj0 : j0 < rest.length := by simpa using hj
          have hih := ih (start + 1) d2 dict hrest hnd2 j0 hj0
          rw [show (ex :: rest).get ⟨j0 + 1, hj⟩ = rest.get ⟨j0, hj0⟩ from rfl,
            show start + (j0 + 1) = (start + 1) + j0 from by omega]
          exact hih

/-- C7 confirmed: the de-duplication loop skips a candidate whose realized
text is already kept (the kept texts are distinct), stops once n_best_size
entries have been kept, and with validate_flag stops right after the first
kept entry; in validate mode the returned dict maps each example's
(paragraph_id, turn_id) (keys assumed pairwise distinct, as one dict entry
is written per example) to that example's single top-ranked text. -/
theorem C7_dedup_and_validate
    (realize : PrelimPrediction → String) (nBestSizeA : Nat) (validateFlagA : Bool)
    (ps : List PrelimPrediction)
    (getFinalText : String → String → Bool → String)
    (getBestIndexes : List ℚ → Nat → List Nat)
    (allExamples : List CoQAExample) (allFeatures : List ChunkFeature)
    (allResults : List RawResult) (nBestSize maxAnswerLength : Nat) (doLowerCase : Bool)
    (dict : List ((String × Int) × String))
    (hdict : makeValidatePredictions getFinalText getBestIndexes allExamples
      allFeatures allResults nBestSize maxAnswerLength doLowerCase = some dict)
    (hkeys : (allExamples.map (fun e => (e.paragraph_id, e.turn_id))).Nodup)
    (j : Nat) (hj : j < allExamples.length) :
    ((nbestLoop realize nBestSizeA validateFlagA ps []).map NbestPrediction.text).Nodup ∧
    (nbestLoop realize nBestSizeA validateFlagA ps []).length ≤ nBestSizeA ∧
    (nbestLoop realize nBestSizeA true ps []).length ≤ 1 ∧
    dictFind ((allExamples.get ⟨j, hj⟩).paragraph_id,
        (allExamples.get ⟨j, hj⟩).turn_id) dict
      = validateAnswer getFinalText getBestIndexes (allExamples.get ⟨j, hj⟩)
          (allFeatures.filter (fun f => f.example_index == j)) allResults
          nBestSize maxAnswerLength doLowerCase := by
  refine ⟨nbestLoop_text_nodup _ _ _ ps [] (by simp), ?_, ?_, ?_⟩
  · have h := nbestLoop_length_le realize nBestSizeA validateFlagA ps []
    simpa using h
  · have h := nbestLoop_validate_short realize nBestSizeA ps []
    simpa using h
  · have hfold : (allExamples.enumFrom 0).foldlM
        (validateStep getFinalText getBestIndexes allFeatures allResults
          nBestSize maxAnswerLength doLowerCase) [] = some dict := hdict
    have hfind := validateFold_find getFinalText getBestIndexes allFeatures allResults
      nBestSize maxAnswerLength doLowerCase allExamples 0 [] dict hfold hkeys j hj
    rw [show (0 : Nat) + j = j from by omega] at hfind
    exact hfind

/-- Concrete example used to witness C7. -/
def c7Example : CoQAExample := ⟨["q"], ["d"], 0, 0, "d", 0, 0, "p", 1⟩

/-- C7, witnessed on a single example with no chunks (n_best_size 1,
validate mode): the dict maps ("p", 1) to the decoded answer. -/
theorem C7_dedup_and_validate_witness :
    ((nbestLoop (fun _ => "t") 1 true [] []).map NbestPrediction.text).Nodup ∧
    (nbestLoop (fun _ => "t") 1 true [] []).length ≤ 1 ∧
    (nbestLoop (fun _ => "t") 1 true [] []).length ≤ 1 ∧
    dictFind (([c7Example].get ⟨0, Nat.zero_lt_one⟩).paragraph_id,
        ([c7Example].get ⟨0, Nat.zero_lt_one⟩).turn_id) [(("p", 1), "empty")]
      = validateAnswer (fun t _ _ => t) (fun _ _ => []) ([c7Example].get ⟨0, Nat.zero_lt_one⟩)
          (([] : List ChunkFeature).filter (fun f => f.example_index == 0)) []
          1 1 false :=
  C7_dedup_and_validate (fun _ => "t") 1 true [] (fun t _ _ => t) (fun _ _ => [])
    [c7Example] [] [] 1 1 false [(("p", 1), "empty")] (by decide) (by decide)
    0 Nat.zero_lt_one
